import Mathlib

/-!
Verification of the Push 2 control-surface driver core
(`libs/surfaces/push2/push2.cc`, `push2.h`).

The C++ driver is shallowly embedded: each relevant C++ function is
translated into an executable Lean definition over explicit state, and the
specification's claims are proved (or refuted) about those definitions.
-/

namespace Push2

/-! ### LED model (`push2.h`, `struct LED`) -/

/-- `LED::State` (`push2.h`): animation/transition state of an illuminable
control. Only `NoTransition` and `OneShot24th` are used by the embedded
code paths. -/
inductive LedState where
  | NoTransition
  | OneShot24th
  | OneShot16th
  | OneShot8th
  | OneShot4th
  | OneShot2th
  | Pulsing24th
  | Pulsing16th
  | Pulsing8th
  | Pulsing4th
  | Pulsing2th
  | Blinking24th
  | Blinking16th
  | Blinking8th
  | Blinking4th
  | Blinking2th
deriving DecidableEq, Repr

/-- `LED::Colors` (`push2.h`): the reserved standard palette indices. -/
def LED_Black : Nat := 0
def LED_Red : Nat := 127
def LED_Green : Nat := 126
def LED_Blue : Nat := 125
def LED_DarkGray : Nat := 124
def LED_LightGray : Nat := 123
def LED_White : Nat := 122

/-- `Pad::WhenPressed` (`push2.h`). -/
inductive WhenPressed where
  | Nothing
  | FlashOn
  | FlashOff
deriving DecidableEq, Repr

/-- `struct Pad` (`push2.h`): per-pad mutable record.  `_extra` is the
pad's fixed physical note number; `filtered` is the note it currently
emits (`-1` when unmapped). -/
structure Pad where
  x : Int
  y : Int
  extra : Int
  color_index : Nat
  state : LedState
  do_when_pressed : WhenPressed
  filtered : Int
  perma_color : Nat
deriving DecidableEq, Repr

/-- `Pad::state_msg` (`push2.h`): `[0x90|_state, _extra, _color_index]`.
The state nibble is the `LedState` constructor index. -/
def Pad.state_msg (p : Pad) : List Int :=
  [0x90 + 0, p.extra, (p.color_index : Int)]

/-! ### MIDI events and the realtime pad filter (`Push2::pad_filter`) -/

/-- The event kinds distinguished by `Push2::pad_filter` via
`Evoral::Event::is_note_on / is_note_off / is_pitch_bender /
is_poly_pressure / is_channel_pressure`; everything else falls into
`other`. -/
inductive MidiEventKind where
  | noteOn
  | noteOff
  | pitchBend
  | polyPressure
  | channelPressure
  | other
deriving DecidableEq, Repr

/-- An event in a `MidiBuffer` as far as `pad_filter` inspects it:
its kind, its note number, and its velocity byte. -/
structure MidiEvent where
  kind : MidiEventKind
  note : Int
  velocity : Nat
deriving DecidableEq, Repr

def MidiEvent.is_note_on (ev : MidiEvent) : Bool :=
  ev.kind = MidiEventKind.noteOn

def MidiEvent.is_note_off (ev : MidiEvent) : Bool :=
  ev.kind = MidiEventKind.noteOff

/-- The driver state read by `Push2::pad_filter` on the realtime thread:
whether `_current_layout == _cue_layout`, the last-published
`_nn_pad_map` (note number to pad), and `_octave_shift`. -/
structure FilterState where
  currentLayoutIsCue : Bool
  nnPadMap : Int → Option Pad
  octaveShift : Int

/-- One iteration of the event loop in `Push2::pad_filter`
(`push2.cc` lines 1165-1196): the events pushed to `out` for `ev`, and
whether `matched` was set for `ev`. -/
def padFilterEvent (s : FilterState) (ev : MidiEvent) :
    List MidiEvent × Bool :=
  if ev.is_note_on || ev.is_note_off then
    if ev.note > 10 && ev.note != 12 then
      match s.nnPadMap ev.note with
      | some pad =>
        if pad.filtered ≥ 0 then
          ({ ev with note := pad.filtered + s.octaveShift * 12 } :: [], true)
        else
          ([], true)
      | none => ([ev], true)
    else
      ([], false)
  else if ev.kind = MidiEventKind.pitchBend
       || ev.kind = MidiEventKind.polyPressure
       || ev.kind = MidiEventKind.channelPressure then
    ([ev], false)
  else
    ([], false)

/-- `Push2::pad_filter` (`push2.cc` lines 1152-1199): if the current
layout is the cue layout, return immediately with `out` untouched;
otherwise accumulate the per-event outputs in order and OR the per-event
`matched` flags. -/
def pad_filter (s : FilterState) (input : List MidiEvent) :
    List MidiEvent × Bool :=
  if s.currentLayoutIsCue then
    ([], false)
  else
    input.foldr
      (fun ev acc =>
        ((padFilterEvent s ev).1 ++ acc.1, (padFilterEvent s ev).2 || acc.2))
      ([], false)

/-! ### Row intervals (`row_interval_semitones`, `push2.cc` lines 82-97) -/

/-- `Push2::RowInterval` (`push2.h`). -/
inductive RowInterval where
  | Third
  | Fourth
  | Fifth
  | Sequential
deriving DecidableEq, Repr

/-- `row_interval_semitones` (`push2.cc` lines 82-97): semitone distance
between vertically adjacent pad rows. -/
def row_interval_semitones (row_interval : RowInterval) (inkey : Bool) : Int :=
  match row_interval with
  | RowInterval.Third => 4
  | RowInterval.Fourth => 5
  | RowInterval.Fifth => 7
  | RowInterval.Sequential => if inkey then 12 else 8

/-! ### Scale-to-pad-grid mapping
(`mode_notes_bitset`, `mode_notes_vector`, `Push2::set_pad_scale_in_key`,
`Push2::set_pad_scale_chromatic`, `Push2::set_pad_scale`) -/

/-- `Push2::NoteGridOrigin` (`push2.h`). -/
inductive NoteGridOrigin where
  | Fixed
  | Rooted
deriving DecidableEq, Repr

/-- `Push2::PadNoteKind` (`push2.h`). -/
inductive PadNoteKind where
  | RootNote
  | InScaleNote
  | OutOfScaleNote
deriving DecidableEq, Repr

/-- Shared loop of `mode_notes_bitset` and `mode_notes_vector`
(`push2.cc` lines 1376-1457), which run the identical iteration, one
setting bits and one pushing to a vector.

Modelled from the spec: `MusicalMode(mode).steps` lives outside the
surveyed sources, so a mode is represented here by `offsets`, the list
`(int)floor(2.0 * step)` of its doubled-and-truncated steps, which is
exactly the integer the C++ loop adds to `root` (its `root` is an `int`,
so `floor(root + 2.0*step) = root + floor(2.0*step)` for these values).

State `(root, rest)`: `rest` is the not-yet-consumed suffix of the step
list for the current octave.  On `rest = []` the loop advances `root` one
octave, stops past 127, and records the new root; otherwise it records
`root + o` when that is in `(0, 127]`, stopping past 127. -/
def modeNotesAux (offsets : List Int) (root : Int) (rest : List Int) :
    List Int :=
  match rest with
  | [] =>
    if root + 12 > 127 then []
    else (root + 12) :: modeNotesAux offsets (root + 12) offsets
  | o :: rest' =>
    if root + o > 127 then []
    else if root + o > 0 then (root + o) :: modeNotesAux offsets root rest'
    else modeNotesAux offsets root rest'
termination_by ((128 - root).toNat, rest.length)
decreasing_by
  · apply Prod.Lex.left
    omega
  · apply Prod.Lex.right
    simp
  · apply Prod.Lex.right
    simp

/-- `mode_notes_vector` (`push2.cc` lines 1420-1457): every MIDI note
number belonging to the mode rooted at `scale_root`, in the order the
loop emits them, starting from `root = scale_root - 12`. -/
def mode_notes_vector (scale_root : Int) (offsets : List Int) : List Int :=
  modeNotesAux offsets (scale_root - 12) offsets

/-- `mode_notes_bitset(...).test(note)` (`push2.cc` lines 1376-1413):
the bitset records exactly the notes the identical loop pushes into
`mode_notes_vector`, so the test is membership in that list.  (For
`note` outside `0..127` the C++ `std::bitset<128>::test` raises
`std::out_of_range`; the embedding returns `false` there.) -/
def mode_notes_bitset_test (scale_root : Int) (offsets : List Int)
    (note : Int) : Bool :=
  (mode_notes_vector scale_root offsets).contains note

/-- `Push2::set_pad_note_kind` (`push2.cc` lines 1349-1369). -/
def set_pad_note_kind (selection_color : Nat) (p : Pad) (kind : PadNoteKind) :
    Pad :=
  let p' :=
    match kind with
    | PadNoteKind.RootNote =>
      { p with color_index := selection_color,
               perma_color := selection_color,
               do_when_pressed := WhenPressed.FlashOff }
    | PadNoteKind.InScaleNote =>
      { p with color_index := LED_White,
               perma_color := LED_White,
               do_when_pressed := WhenPressed.FlashOff }
    | PadNoteKind.OutOfScaleNote =>
      { p with color_index := LED_Black,
               do_when_pressed := WhenPressed.FlashOn }
  { p' with state := LedState.NoTransition }

/-- The reset applied to every pad at the top of `Push2::set_pad_scale`
(`push2.cc` lines 1552-1558): black, no transition, unmapped, flash-on. -/
def resetPad (p : Pad) : Pad :=
  { p with color_index := LED_Black,
           state := LedState.NoTransition,
           perma_color := LED_Black,
           filtered := -1,
           do_when_pressed := WhenPressed.FlashOn }

/-- Iterating `std::lower_bound` to the end of a vector that is
partitioned with respect to `(· < v)` (as `mode_notes_vector` is for any
genuine musical mode) traverses exactly the suffix that drops the
longest prefix of elements `< v`. -/
def lower_bound_suffix (notes : List Int) (v : Int) : List Int :=
  notes.dropWhile (fun n => n < v)

/-- The `ideal_leftmost_note` computation of `Push2::set_pad_scale_in_key`
(`push2.cc` lines 1467-1471): `ideal_first_note` is 36 for `Fixed` origin
and `scale_root + 12*octave` for `Rooted`, and row `row`'s ideal leftmost
note adds `ideal_vertical_semitones * row`. -/
def ideal_leftmost_note (scale_root octave : Int) (origin : NoteGridOrigin)
    (ideal_vertical_semitones : Int) (row : Nat) : Int :=
  (if origin = NoteGridOrigin.Fixed then 36 else scale_root + 12 * octave)
    + ideal_vertical_semitones * (row : Int)

/-- `Push2::set_pad_scale_in_key` (`push2.cc` lines 1459-1496), viewed at
one pad.  Returns the pad record at grid position `(row, col)` after the
call, paired with the `PadNoteKind` passed to `set_pad_note_kind` for it
(`none` when the in-scale sequence was exhausted and the pad left
untouched).  `p` is the pad's state before the call. -/
def set_pad_scale_in_key_pad (selection_color : Nat)
    (scale_root octave : Int) (offsets : List Int)
    (origin : NoteGridOrigin) (ideal_vertical_semitones : Int)
    (row col : Nat) (p : Pad) : Pad × Option PadNoteKind :=
  let notes := mode_notes_vector scale_root offsets
  match (lower_bound_suffix notes
      (ideal_leftmost_note scale_root octave origin
        ideal_vertical_semitones row))[col]? with
  | some note =>
    let p' := { p with filtered := note }
    if note % 12 == scale_root then
      (set_pad_note_kind selection_color p' PadNoteKind.RootNote,
       some PadNoteKind.RootNote)
    else
      (set_pad_note_kind selection_color p' PadNoteKind.InScaleNote,
       some PadNoteKind.InScaleNote)
  | none => (p, none)

/-- `Push2::set_pad_scale_chromatic` (`push2.cc` lines 1504-1538), viewed
at one pad: the pad record at grid position `(row, col)` after the call,
paired with the `PadNoteKind` passed to `set_pad_note_kind` for it.
Every pad is assigned `leftmost_note + col` unconditionally. -/
def set_pad_scale_chromatic_pad (selection_color : Nat)
    (scale_root octave : Int) (offsets : List Int)
    (origin : NoteGridOrigin) (vertical_semitones : Int)
    (row col : Nat) (p : Pad) : Pad × Option PadNoteKind :=
  let first_note : Int :=
    if origin = NoteGridOrigin.Fixed then 36 else scale_root + 12 * octave
  let leftmost_note := first_note + vertical_semitones * (row : Int)
  let note := leftmost_note + (col : Int)
  let p' := { p with filtered := note }
  if !(mode_notes_bitset_test scale_root offsets note) then
    (set_pad_note_kind selection_color p' PadNoteKind.OutOfScaleNote,
     some PadNoteKind.OutOfScaleNote)
  else if note % 12 == scale_root then
    (set_pad_note_kind selection_color p' PadNoteKind.RootNote,
     some PadNoteKind.RootNote)
  else
    (set_pad_note_kind selection_color p' PadNoteKind.InScaleNote,
     some PadNoteKind.InScaleNote)

/-- `Push2::set_pad_scale` (`push2.cc` lines 1540-1607), viewed at one
pad of the 8x8 grid: the pad is first reset (cleared color, `filtered =
-1`, flash-on), then assigned by the in-key or chromatic policy using
`row_interval_semitones`.  `p` is the pad record before the call. -/
def set_pad_scale (selection_color : Nat) (scale_root octave : Int)
    (offsets : List Int) (origin : NoteGridOrigin)
    (row_interval : RowInterval) (inkey : Bool)
    (row col : Nat) (p : Pad) : Pad × Option PadNoteKind :=
  let base := resetPad p
  let vertical_semitones := row_interval_semitones row_interval inkey
  if inkey then
    set_pad_scale_in_key_pad selection_color scale_root octave offsets
      origin vertical_semitones row col base
  else
    set_pad_scale_chromatic_pad selection_color scale_root octave offsets
      origin vertical_semitones row col base

/-- The pitch classes of the mode rooted at `scale_root`: the root's
class together with the class of each (doubled, truncated) step offset
above the root.  This is the "interval set rooted at root" the
specification's in-key property quantifies over. -/
def mode_interval_set (scale_root : Int) (offsets : List Int) : List Int :=
  scale_root % 12 :: offsets.map (fun o => (scale_root + o) % 12)

/-- The smallest note the loop of `modeNotesAux` can emit from state
`(root, rest)`: the next candidate is `root + o` for the head offset, or
`root + 12` when the octave's steps are exhausted. -/
def restLB (root : Int) (rest : List Int) : Int :=
  match rest with
  | [] => root + 12
  | o :: _ => root + o

/-- A concrete pad record used to instantiate theorems on concrete
inputs. -/
def examplePad : Pad :=
  { x := 0, y := 0, extra := 36, color_index := 0,
    state := LedState.NoTransition, do_when_pressed := WhenPressed.FlashOn,
    filtered := 38, perma_color := 0 }

/-- A concrete published filter state: not the cue layout, one pad at
physical note 40 mapped to filtered note 38, octave shift 2. -/
def exampleFilterState : FilterState :=
  { currentLayoutIsCue := false,
    nnPadMap := fun n => if n = 40 then some examplePad else none,
    octaveShift := 2 }

/-- The pad record produced for grid position `(0,0)` by the in-key
placement at the concrete configuration used in the witnesses
(C major, octave 3, fixed origin, fourths): note 36, classified as the
root. -/
def exampleInKeyPad : Pad :=
  { x := 0, y := 0, extra := 36, color_index := 126,
    state := LedState.NoTransition, do_when_pressed := WhenPressed.FlashOff,
    filtered := 36, perma_color := 126 }

/-! ### Connection state machine
(`Push2::connection_handler`, `Push2::begin_using_device`,
`Push2::stop_using_device`) -/

/-- Which of the driver's two async MIDI ports a connect/disconnect
notification names (`connection_handler` matches the notification's port
names against `_async_in` / `_async_out`). -/
inductive PortSide where
  | input
  | output
deriving DecidableEq, Repr

/-- Observable device operations of the connection handler:
`deviceAcquire` marks a call to `Push2::device_acquire` (itself
idempotent on the USB handle); `began` marks a run of the body of
`Push2::begin_using_device`, which has no in-use guard; `stopped` marks
an effective run of the body of `Push2::stop_using_device`, which
returns early when `_in_use` is false. -/
inductive DeviceEffect where
  | deviceAcquire
  | began
  | stopped
deriving DecidableEq, Repr

/-- The `_connection_state` bits (`InputConnected`, `OutputConnected`,
`push2.h` lines 654-657) together with `_in_use`. -/
structure ConnState where
  inputConnected : Bool
  outputConnected : Bool
  inUse : Bool
deriving DecidableEq, Repr

/-- `Push2::begin_using_device` (`push2.cc` lines 204-233):
unconditionally starts the vblank timer, initializes buttons, touch
strip and pad colors, requests the pressure mode, and sets
`_in_use = true`. -/
def begin_using_device (s : ConnState) : ConnState × List DeviceEffect :=
  ({ s with inUse := true }, [DeviceEffect.began])

/-- `Push2::stop_using_device` (`push2.cc` lines 235-259): returns
immediately when `_in_use` is false; otherwise blacks out the surface,
stops the timer and clears `_in_use`. -/
def stop_using_device (s : ConnState) : ConnState × List DeviceEffect :=
  if s.inUse then ({ s with inUse := false }, [DeviceEffect.stopped])
  else (s, [])

/-- `Push2::connection_handler` (`push2.cc` lines 1241-1301), restricted
to notifications that name one of our two ports: the named bit is set or
cleared to `yn`; if both bits are then set, `device_acquire` and
`begin_using_device` run; otherwise `stop_using_device` runs. -/
def connection_handler (s : ConnState) (side : PortSide) (yn : Bool) :
    ConnState × List DeviceEffect :=
  let s1 :=
    match side with
    | PortSide.input => { s with inputConnected := yn }
    | PortSide.output => { s with outputConnected := yn }
  if s1.inputConnected && s1.outputConnected then
    let r := begin_using_device s1
    (r.1, DeviceEffect.deviceAcquire :: r.2)
  else
    stop_using_device s1

/-- The current value of the connection bit a notification is about. -/
def bitOf (s : ConnState) (side : PortSide) : Bool :=
  match side with
  | PortSide.input => s.inputConnected
  | PortSide.output => s.outputConnected

/-- The disconnected state: neither port connected, device not in use. -/
def disconnectedState : ConnState :=
  { inputConnected := false, outputConnected := false, inUse := false }

/-- The fully-connected state: both ports connected, device in use. -/
def fullyConnectedState : ConnState :=
  { inputConnected := true, outputConnected := true, inUse := true }

/-! ### Color palette allocator
(`Push2::get_color_index`, `Push2::build_color_map`) -/

/-- `RGB_TO_UINT` (gtkmm2ext `rgb_macros.h`, outside the surveyed
sources): packs 8-bit channels into one integer key,
`(r << 16) | (g << 8) | b`. -/
def RGB_TO_UINT (r g b : Nat) : Nat := (r <<< 16) ||| (g <<< 8) ||| b

/-- `std::map::find` on the association-list representation of
`_color_map`. -/
def mapFind (m : List (Nat × Nat)) (k : Nat) : Option Nat :=
  match m with
  | [] => none
  | (k', v) :: rest => if k' = k then some v else mapFind rest k

/-- `std::map::operator[] =` on the association-list representation:
overwrite the entry for `k` if present, otherwise append. -/
def mapInsert (m : List (Nat × Nat)) (k v : Nat) : List (Nat × Nat) :=
  match m with
  | [] => [(k, v)]
  | (k', v') :: rest =>
    if k' = k then (k, v) :: rest else (k', v') :: mapInsert rest k v

/-- The allocator state: `_color_map` (RGBA key to palette index),
`_color_map_free_list` (a stack, head is `top()`), and the stream of
values successive calls of `random()` will return (with how many have
been consumed). -/
structure ColorState where
  colorMap : List (Nat × Nat)
  freeList : List Nat
  randomSeq : Nat → Nat
  randCalls : Nat

/-- The palette-entry SysEx built in `Push2::get_color_index`
(`push2.cc` lines 1759-1779): header, index, 7-bit-split red, green,
blue and white channels, EOX. -/
def palette_msg (index r g b w : Nat) : List Nat :=
  [0xf0, 0x00, 0x21, 0x1d, 0x01, 0x01, 0x03,
   index,
   r &&& 0x7f, (r &&& 0x80) >>> 7,
   g &&& 0x7f, (g &&& 0x80) >>> 7,
   b &&& 0x7f, (b &&& 0x80) >>> 7,
   w &&& 0x7f, w &&& 0x80,
   0xf7]

/-- The apply-palette SysEx (`push2.cc` line 1781). -/
def update_palette_msg : List Nat :=
  [0xf0, 0x00, 0x21, 0x1d, 0x01, 0x01, 0x05, 0xf7]

/-- `Push2::get_color_index` (`push2.cc` lines 1726-1786): return the
cached index if `rgba` is mapped (no messages); otherwise allocate an
index (free-list top, or `1 + random() % 121` when the free list is
empty), emit the palette-entry and apply-palette SysEx, cache and
return.  The channel bytes `r`, `g`, `b` are recovered from the packed
RGBA key exactly as `color_to_rgba` plus `floor(255.0 * d)` recovers
them; `w` is the fixed 126. Returns (index, messages written, new
state). -/
def get_color_index (s : ColorState) (rgba : Nat) :
    Nat × List (List Nat) × ColorState :=
  match mapFind s.colorMap rgba with
  | some idx => (idx, [], s)
  | none =>
    let r := (rgba >>> 24) &&& 0xff
    let g := (rgba >>> 16) &&& 0xff
    let b := (rgba >>> 8) &&& 0xff
    let w := 126
    match s.freeList with
    | [] =>
      let index := 1 + s.randomSeq s.randCalls % 121
      (index, [palette_msg index r g b w, update_palette_msg],
       { s with randCalls := s.randCalls + 1,
                colorMap := mapInsert s.colorMap rgba index })
    | i :: rest =>
      (i, [palette_msg i r g b w, update_palette_msg],
       { s with freeList := rest,
                colorMap := mapInsert s.colorMap rgba i })

/-- `Push2::build_color_map` (`push2.cc` lines 1788-1807): seed the
seven Ableton standard colors at indices 0 and 122-127, then push
indices 1..121 onto the free-list stack (121 ends on top).  `rnd` is
the stream of future `random()` values. -/
def build_color_map_state (rnd : Nat → Nat) : ColorState :=
  { colorMap :=
      [(RGB_TO_UINT 0 0 0, 0),
       (RGB_TO_UINT 204 204 204, 122),
       (RGB_TO_UINT 64 64 64, 123),
       (RGB_TO_UINT 20 20 20, 124),
       (RGB_TO_UINT 0 0 255, 125),
       (RGB_TO_UINT 0 255 0, 126),
       (RGB_TO_UINT 255 0 0, 127)],
    freeList := (List.range 121).reverse.map (fun n => n + 1),
    randomSeq := rnd,
    randCalls := 0 }

/-- A concrete allocator state whose free list is exhausted, used to
instantiate the fallback path in witnesses. -/
def exampleColorState : ColorState :=
  { colorMap := (build_color_map_state (fun _ => 300)).colorMap,
    freeList := [],
    randomSeq := fun _ => 300,
    randCalls := 0 }

/-! ### Dispatcher note handlers
(`Push2::handle_midi_note_on_message`,
`Push2::handle_midi_note_off_message`) -/

/-- The externally visible actions of the dispatcher-side note handlers:
layout vpot touches, transport stop, cue-layout pad press/release, and
writes of LED state messages to the output port. -/
inductive DispatchAction where
  | stripVpotTouch (n : Nat) (touching : Bool)
  | otherVpotTouch (n : Nat) (touching : Bool)
  | transportStop
  | padPress (x y : Int)
  | padRelease (x y : Int)
  | writeMsg (msg : List Int)
deriving DecidableEq, Repr

/-- The dispatcher-thread state the two note handlers read and write:
whether the current layout is the cue layout, `_nn_pad_map` (physical
note number to pad), `_fn_pad_map` (filtered note to the physical note
numbers of the pads that generate it; the C++ multimap holds shared
pointers to the same pad records, which the embedding addresses through
their physical note numbers), and `_contrast_color`. -/
structure DriverState where
  currentLayoutIsCue : Bool
  nnPadMap : Int → Option Pad
  fnPadMap : Int → List Int
  contrastColor : Nat

/-- Point update of the pad store at one physical note number. -/
def updatePad (m : Int → Option Pad) (key : Int) (p : Pad) :
    Int → Option Pad :=
  fun n => if n = key then some p else m n

/-- `Push2::handle_midi_note_off_message` (`push2.cc` lines 839-881):
notes below 11 are ignored; an unknown note is ignored; in the cue
layout the pad coordinates are sent to `pad_release`; otherwise every
pad generating the pressed pad's filtered note has its color restored
to `perma_color` and its state message written.  (The C++
`equal_range(...).first == end()` early-out only skips an empty
iteration; the net effect is iterating the possibly-empty range.)
The velocity byte of a Note-Off is never read. -/
def handle_midi_note_off_message (st : DriverState) (note : Int)
    (velocity : Nat) : DriverState × List DispatchAction :=
  if note < 11 then (st, [])
  else
    match st.nnPadMap note with
    | none => (st, [])
    | some pad_pressed =>
      if st.currentLayoutIsCue then
        (st, [DispatchAction.padRelease pad_pressed.x pad_pressed.y])
      else
        (st.fnPadMap pad_pressed.filtered).foldl
          (fun acc key =>
            match acc.1.nnPadMap key with
            | none => acc
            | some pad =>
              let pad' := { pad with color_index := pad.perma_color,
                                     state := LedState.NoTransition }
              ({ acc.1 with nnPadMap := updatePad acc.1.nnPadMap key pad' },
               acc.2 ++ [DispatchAction.writeMsg pad'.state_msg]))
          (st, [])

/-- The switch at the top of `Push2::handle_midi_note_on_message`
(`push2.cc` lines 754-799): notes 0-7 are per-track encoder touches,
8-10 the auxiliary encoder touches, and note 12 the touch strip, which
triggers a transport stop while held with velocity below 64. -/
def noteOnSwitchActions (note : Int) (velocity : Nat) :
    List DispatchAction :=
  if 0 ≤ note ∧ note ≤ 7 then
    [DispatchAction.stripVpotTouch note.toNat (velocity > 64)]
  else if note = 10 then [DispatchAction.otherVpotTouch 0 (velocity > 64)]
  else if note = 9 then [DispatchAction.otherVpotTouch 1 (velocity > 64)]
  else if note = 8 then [DispatchAction.otherVpotTouch 3 (velocity > 64)]
  else if note = 12 then
    (if velocity < 64 then [DispatchAction.transportStop] else [])
  else []

/-- `Push2::handle_midi_note_on_message` (`push2.cc` lines 744-837): a
velocity-zero Note-On is delegated to the Note-Off handler immediately;
otherwise the encoder/touch-strip switch runs, notes below 11 stop
there, and a pad press flashes every pad generating the pressed pad's
filtered note (contrast color for `FlashOn` pads, black for `FlashOff`)
and writes its state message; in the cue layout the coordinates go to
`pad_press` instead. -/
def handle_midi_note_on_message (st : DriverState) (note : Int)
    (velocity : Nat) : DriverState × List DispatchAction :=
  if velocity = 0 then handle_midi_note_off_message st note velocity
  else
    let acts := noteOnSwitchActions note velocity
    if note < 11 then (st, acts)
    else
      match st.nnPadMap note with
      | none => (st, acts)
      | some pad_pressed =>
        if st.currentLayoutIsCue then
          (st, acts ++ [DispatchAction.padPress pad_pressed.x pad_pressed.y])
        else
          (st.fnPadMap pad_pressed.filtered).foldl
            (fun acc key =>
              match acc.1.nnPadMap key with
              | none => acc
              | some pad =>
                let pad' :=
                  if pad.do_when_pressed = WhenPressed.FlashOn then
                    { pad with color_index := st.contrastColor,
                               state := LedState.NoTransition }
                  else if pad.do_when_pressed = WhenPressed.FlashOff then
                    { pad with color_index := LED_Black,
                               state := LedState.NoTransition }
                  else pad
                ({ acc.1 with nnPadMap := updatePad acc.1.nnPadMap key pad' },
                 acc.2 ++ [DispatchAction.writeMsg pad'.state_msg]))
            (st, acts)

/-- MIDI's reading of a velocity-zero Note-On: it denotes the same event
as a Note-Off.  Used to compare the realtime filter's outputs for the
two encodings of the same musical event. -/
def normalizeVelocityZero (ev : MidiEvent) : MidiEvent :=
  if ev.kind = MidiEventKind.noteOn ∧ ev.velocity = 0 then
    { ev with kind := MidiEventKind.noteOff }
  else ev

/-! ### Helper lemmas -/

theorem set_pad_note_kind_filtered (c : Nat) (p : Pad) (k : PadNoteKind) :
    (set_pad_note_kind c p k).filtered = p.filtered := by
  cases k <;> rfl

theorem set_pad_scale_chromatic_pad_filtered (c : Nat)
    (scale_root octave : Int) (offsets : List Int) (origin : NoteGridOrigin)
    (v : Int) (row col : Nat) (p : Pad) :
    (set_pad_scale_chromatic_pad c scale_root octave offsets origin v
        row col p).1.filtered
      = (if origin = NoteGridOrigin.Fixed then 36 else scale_root + 12 * octave)
        + v * (row : Int) + (col : Int) := by
  simp only [set_pad_scale_chromatic_pad]
  repeat' split
  all_goals simp [set_pad_note_kind_filtered]

theorem pad_filter_singleton (s : FilterState) (ev : MidiEvent)
    (h : s.currentLayoutIsCue = false) :
    pad_filter s [ev] = ((padFilterEvent s ev).1, (padFilterEvent s ev).2) := by
  simp [pad_filter, h]

theorem mapFind_mapInsert_self (m : List (Nat × Nat)) (k v : Nat) :
    mapFind (mapInsert m k v) k = some v := by
  induction m with
  | nil => simp [mapInsert, mapFind]
  | cons kv rest ih =>
    obtain ⟨k', v'⟩ := kv
    by_cases h : k' = k
    · simp [mapInsert, h, mapFind]
    · simp [mapInsert, h, mapFind, ih]

theorem mem_mapInsert_of_mem (m : List (Nat × Nat)) (k v : Nat)
    (kv : Nat × Nat) (hm : kv ∈ m) (hk : mapFind m k = none) :
    kv ∈ mapInsert m k v := by
  induction m with
  | nil => simp at hm
  | cons kv' rest ih =>
    obtain ⟨k', v'⟩ := kv'
    simp only [mapFind] at hk
    by_cases h : k' = k
    · rw [if_pos h] at hk
      exact absurd hk (by simp)
    · rw [if_neg h] at hk
      rw [mapInsert]
      simp only [if_neg h]
      rcases List.mem_cons.mp hm with rfl | hm'
      · exact List.mem_cons_self _ _
      · exact List.mem_cons_of_mem _ (ih hm' hk)

theorem modeNotesAux_mod12_mem (offsets : List Int) (scale_root : Int) :
    ∀ (root : Int) (rest : List Int), root % 12 = scale_root % 12 →
      (∀ o ∈ rest, o ∈ offsets) →
      ∀ x ∈ modeNotesAux offsets root rest,
        x % 12 ∈ mode_interval_set scale_root offsets := by
  intro root rest
  induction root, rest using modeNotesAux.induct offsets with
  | case1 root h =>
    intro _ _ x hx
    simp [modeNotesAux, h] at hx
  | case2 root h ih =>
    intro hroot hsub x hx
    rw [modeNotesAux] at hx
    simp only [if_neg h, List.mem_cons] at hx
    rcases hx with rfl | hx
    · have : (root + 12) % 12 = scale_root % 12 := by omega
      rw [this]
      exact List.mem_cons_self _ _
    · exact ih (by omega) (fun o ho => ho) x hx
  | case3 root o rest' h =>
    intro _ _ x hx
    simp [modeNotesAux, h] at hx
  | case4 root o rest' h hpos ih =>
    intro hroot hsub x hx
    rw [modeNotesAux] at hx
    simp only [if_neg h, if_pos hpos, List.mem_cons] at hx
    rcases hx with rfl | hx
    · have hmod : (root + o) % 12 = (scale_root + o) % 12 := by omega
      rw [hmod, mode_interval_set]
      refine List.mem_cons_of_mem _ (List.mem_map.mpr ⟨o, ?_, rfl⟩)
      exact hsub o (List.mem_cons_self _ _)
    · exact ih hroot (fun o' ho' => hsub o' (List.mem_cons_of_mem _ ho')) x hx
  | case5 root o rest' h hnpos ih =>
    intro hroot hsub x hx
    rw [modeNotesAux] at hx
    simp only [if_neg h, if_neg hnpos] at hx
    exact ih hroot (fun o' ho' => hsub o' (List.mem_cons_of_mem _ ho')) x hx

theorem restLB_gt (root : Int) (rest : List Int) (h : ∀ o ∈ rest, 0 < o) :
    root < restLB root rest := by
  cases rest with
  | nil => simp [restLB]
  | cons o t =>
    have := h o (List.mem_cons_self _ _)
    simp only [restLB]
    omega

theorem add_lt_restLB (root o : Int) (rest' : List Int) (ho12 : o < 12)
    (hgt : ∀ o' ∈ rest', o < o') : root + o < restLB root rest' := by
  cases rest' with
  | nil =>
    simp only [restLB]
    omega
  | cons o' t =>
    have := hgt o' (List.mem_cons_self _ _)
    simp only [restLB]
    omega

theorem modeNotesAux_lb (offsets : List Int)
    (hpos : ∀ o ∈ offsets, 0 < o) (hlt : ∀ o ∈ offsets, o < 12)
    (hsorted : List.Pairwise (· < ·) offsets) :
    ∀ (root : Int) (rest : List Int),
      (∀ o ∈ rest, o ∈ offsets) → List.Pairwise (· < ·) rest →
      ∀ x ∈ modeNotesAux offsets root rest, restLB root rest ≤ x := by
  intro root rest
  induction root, rest using modeNotesAux.induct offsets with
  | case1 root h =>
    intro _ _ x hx
    simp [modeNotesAux, h] at hx
  | case2 root h ih =>
    intro _ _ x hx
    rw [modeNotesAux] at hx
    simp only [if_neg h, List.mem_cons] at hx
    rcases hx with rfl | hx
    · simp [restLB]
    · have hx' := ih (fun o ho => ho) hsorted x hx
      have hb := restLB_gt (root + 12) offsets hpos
      simp only [restLB]
      omega
  | case3 root o rest' h =>
    intro _ _ x hx
    simp [modeNotesAux, h] at hx
  | case4 root o rest' h hp ih =>
    intro hsub hpair x hx
    rw [modeNotesAux] at hx
    simp only [if_neg h, if_pos hp, List.mem_cons] at hx
    rcases hx with rfl | hx
    · simp [restLB]
    · have hx' := ih (fun o' ho' => hsub o' (List.mem_cons_of_mem _ ho'))
        hpair.tail x hx
      have hb := add_lt_restLB root o rest'
        (hlt o (hsub o (List.mem_cons_self _ _)))
        (List.pairwise_cons.mp hpair).1
      simp only [restLB]
      omega
  | case5 root o rest' h hnp ih =>
    intro hsub hpair x hx
    rw [modeNotesAux] at hx
    simp only [if_neg h, if_neg hnp] at hx
    have hx' := ih (fun o' ho' => hsub o' (List.mem_cons_of_mem _ ho'))
      hpair.tail x hx
    have hb := add_lt_restLB root o rest'
      (hlt o (hsub o (List.mem_cons_self _ _)))
      (List.pairwise_cons.mp hpair).1
    simp only [restLB]
    omega

theorem modeNotesAux_pairwise (offsets : List Int)
    (hpos : ∀ o ∈ offsets, 0 < o) (hlt : ∀ o ∈ offsets, o < 12)
    (hsorted : List.Pairwise (· < ·) offsets) :
    ∀ (root : Int) (rest : List Int),
      (∀ o ∈ rest, o ∈ offsets) → List.Pairwise (· < ·) rest →
      List.Pairwise (· < ·) (modeNotesAux offsets root rest) := by
  intro root rest
  induction root, rest using modeNotesAux.induct offsets with
  | case1 root h =>
    intro _ _
    simp [modeNotesAux, h]
  | case2 root h ih =>
    intro _ _
    rw [modeNotesAux]
    simp only [if_neg h]
    refine List.pairwise_cons.mpr ⟨?_, ih (fun o ho => ho) hsorted⟩
    intro x hx
    have hlb := modeNotesAux_lb offsets hpos hlt hsorted (root + 12) offsets
      (fun o ho => ho) hsorted x hx
    have hb := restLB_gt (root + 12) offsets hpos
    omega
  | case3 root o rest' h =>
    intro _ _
    simp [modeNotesAux, h]
  | case4 root o rest' h hp ih =>
    intro hsub hpair
    rw [modeNotesAux]
    simp only [if_neg h, if_pos hp]
    refine List.pairwise_cons.mpr
      ⟨?_, ih (fun o' ho' => hsub o' (List.mem_cons_of_mem _ ho')) hpair.tail⟩
    intro x hx
    have hlb := modeNotesAux_lb offsets hpos hlt hsorted root rest'
      (fun o' ho' => hsub o' (List.mem_cons_of_mem _ ho')) hpair.tail x hx
    have hb := add_lt_restLB root o rest'
      (hlt o (hsub o (List.mem_cons_self _ _)))
      (List.pairwise_cons.mp hpair).1
    omega
  | case5 root o rest' h hnp ih =>
    intro hsub hpair
    rw [modeNotesAux]
    simp only [if_neg h, if_neg hnp]
    exact ih (fun o' ho' => hsub o' (List.mem_cons_of_mem _ ho')) hpair.tail

theorem mode_notes_vector_pairwise (scale_root : Int) (offsets : List Int)
    (hpos : ∀ o ∈ offsets, 0 < o) (hlt : ∀ o ∈ offsets, o < 12)
    (hsorted : List.Pairwise (· < ·) offsets) :
    List.Pairwise (· < ·) (mode_notes_vector scale_root offsets) :=
  modeNotesAux_pairwise offsets hpos hlt hsorted (scale_root - 12) offsets
    (fun o ho => ho) hsorted

theorem mode_notes_vector_mod12_mem (scale_root : Int) (offsets : List Int) :
    ∀ x ∈ mode_notes_vector scale_root offsets,
      x % 12 ∈ mode_interval_set scale_root offsets :=
  modeNotesAux_mod12_mem offsets scale_root (scale_root - 12) offsets
    (by omega) (fun o ho => ho)

theorem mem_lower_bound_suffix_ge (v : Int) :
    ∀ (l : List Int), List.Pairwise (· < ·) l →
      ∀ y ∈ lower_bound_suffix l v, v ≤ y := by
  intro l
  induction l with
  | nil =>
    intro _ y hy
    simp [lower_bound_suffix] at hy
  | cons x t ih =>
    intro hp y hy
    simp only [lower_bound_suffix, List.dropWhile_cons, decide_eq_true_eq] at hy
    by_cases hx : x < v
    · rw [if_pos hx] at hy
      exact ih hp.tail y hy
    · rw [if_neg hx] at hy
      rcases List.mem_cons.mp hy with rfl | hyt
      · omega
      · exact le_of_lt (lt_of_le_of_lt (by omega : v ≤ x)
          ((List.pairwise_cons.mp hp).1 y hyt))

theorem mem_lower_bound_suffix_of_ge (v : Int) :
    ∀ (l : List Int) (y : Int), y ∈ l → v ≤ y →
      y ∈ lower_bound_suffix l v := by
  intro l
  induction l with
  | nil =>
    intro y hy _
    simp at hy
  | cons x t ih =>
    intro y hy hvy
    simp only [lower_bound_suffix, List.dropWhile_cons, decide_eq_true_eq]
    by_cases hx : x < v
    · rw [if_pos hx]
      rcases List.mem_cons.mp hy with rfl | hyt
      · exact absurd hx (by omega)
      · exact ih y hyt hvy
    · rw [if_neg hx]
      exact hy

/-! ### Claim C5 -/

/-- Claim C5 counterexample: the claim states the vertical semitone
interval for `Sequential` is 8 and does not depend on the `in_key`
flag; but `row_interval_semitones (Sequential, in_key = true)`
evaluates to 12, not 8. -/
theorem C5_counterexample :
    ¬ row_interval_semitones RowInterval.Sequential true = 8 := by
  decide

/-- Claim C5, amended: the vertical semitone interval derived from
`row_interval` is 4 for `Third`, 5 for `Fourth`, 7 for `Fifth`
regardless of `in_key`; for `Sequential` it does depend on the `in_key`
flag: 8 when `in_key` is false and 12 when `in_key` is true. -/
theorem C5_row_interval_semitones_amended :
    (∀ b, row_interval_semitones RowInterval.Third b = 4)
    ∧ (∀ b, row_interval_semitones RowInterval.Fourth b = 5)
    ∧ (∀ b, row_interval_semitones RowInterval.Fifth b = 7)
    ∧ row_interval_semitones RowInterval.Sequential false = 8
    ∧ row_interval_semitones RowInterval.Sequential true = 12 := by
  refine ⟨?_, ?_, ?_, rfl, rfl⟩ <;> intro b <;> cases b <;> rfl

/-! ### Claim C2 -/

/-- Claim C2: in chromatic placement (`in_key = false`), the note
assigned to the pad at `(row, col)` is
`first_note + row * vertical_semitones + col`, where `first_note` is 36
for `Fixed` origin and `root + 12 * octave` for `Rooted`; and the note
at column `col + 1` is the note at column `col` plus 1. -/
theorem C2_chromatic_placement (selection_color : Nat)
    (scale_root octave : Int) (offsets : List Int) (origin : NoteGridOrigin)
    (row_interval : RowInterval) (row col : Nat) (p q : Pad)
    (hrow : row < 8) (hcol : col < 8) :
    (set_pad_scale selection_color scale_root octave offsets origin
        row_interval false row col p).1.filtered
      = (if origin = NoteGridOrigin.Fixed then 36 else scale_root + 12 * octave)
        + row_interval_semitones row_interval false * (row : Int) + (col : Int)
    ∧ (col + 1 < 8 →
        (set_pad_scale selection_color scale_root octave offsets origin
            row_interval false row (col + 1) q).1.filtered
          = (set_pad_scale selection_color scale_root octave offsets origin
              row_interval false row col p).1.filtered + 1) := by
  constructor
  · simp [set_pad_scale, set_pad_scale_chromatic_pad_filtered]
  · intro _
    simp only [set_pad_scale, Bool.false_eq_true, if_false,
      set_pad_scale_chromatic_pad_filtered]
    push_cast
    ring

/-- Witness for claim C2 at a concrete input: scale root 0, octave 3,
fixed origin, fourths, row 2, column 3 gives note `36 + 5*2 + 3 = 49`,
and column 4 gives 50. -/
theorem C2_chromatic_placement_witness :
    (2 : Nat) < 8 ∧ (3 : Nat) < 8 ∧
    (set_pad_scale 126 0 3 [] NoteGridOrigin.Fixed RowInterval.Fourth
        false 2 3 examplePad).1.filtered = 49 ∧
    (set_pad_scale 126 0 3 [] NoteGridOrigin.Fixed RowInterval.Fourth
        false 2 4 examplePad).1.filtered = 50 := by
  have h := C2_chromatic_placement 126 0 3 [] NoteGridOrigin.Fixed
    RowInterval.Fourth 2 3 examplePad examplePad (by decide) (by decide)
  refine ⟨by decide, by decide, ?_, ?_⟩
  · have h1 := h.1
    norm_num [row_interval_semitones] at h1
    exact h1
  · have h2 := h.2 (by decide)
    have h1 := h.1
    norm_num [row_interval_semitones] at h1 h2
    omega

/-! ### Claim C4 -/

/-- Claim C4 failing input: with the valid configuration
`root = 11, octave = 10, origin = Rooted, in_key = false`, the chromatic
placement assigns pad `(0,0)` the note `11 + 12*10 = 131 > 127`,
contradicting the claim that no assigned note value exceeds 127.  (At
this input the C++ code also calls `std::bitset<128>::test` with an
out-of-range index, which throws.) -/
theorem C4_chromatic_assigned_note_exceeds_127 :
    (set_pad_scale 126 11 10 [2, 4, 5, 7, 9, 11] NoteGridOrigin.Rooted
        RowInterval.Fourth false 0 0 examplePad).1.filtered = 131 ∧
    ¬ ((set_pad_scale 126 11 10 [2, 4, 5, 7, 9, 11] NoteGridOrigin.Rooted
        RowInterval.Fourth false 0 0 examplePad).1.filtered ≤ 127) := by
  have h : (set_pad_scale 126 11 10 [2, 4, 5, 7, 9, 11] NoteGridOrigin.Rooted
      RowInterval.Fourth false 0 0 examplePad).1.filtered = 131 := by
    simp [set_pad_scale, set_pad_scale_chromatic_pad_filtered,
      row_interval_semitones]
  exact ⟨h, by rw [h]; decide⟩

/-! ### Claim C3 -/

/-- Claim C3: in in-key placement, every pad that receives a note gets a
note whose pitch class (`note % 12`) lies in the mode's interval set
rooted at the scale root; the pad is classified `RootNote` exactly when
`note % 12 == scale_root` and otherwise `InScaleNote` (never
`OutOfScaleNote`); and each row's columns are filled with the
consecutive elements of the sorted in-scale note sequence starting at
the first in-scale note greater than or equal to the row's ideal
leftmost note (column `col` receives element `col` of that suffix). -/
theorem C3_in_key_placement (selection_color : Nat) (scale_root octave : Int)
    (offsets : List Int) (origin : NoteGridOrigin)
    (ideal_vertical_semitones : Int) (row col : Nat) (p p' : Pad)
    (k : PadNoteKind)
    (hpos : ∀ o ∈ offsets, 0 < o) (hlt : ∀ o ∈ offsets, o < 12)
    (hsorted : List.Pairwise (· < ·) offsets)
    (hassigned : set_pad_scale_in_key_pad selection_color scale_root octave
        offsets origin ideal_vertical_semitones row col p = (p', some k)) :
    p'.filtered % 12 ∈ mode_interval_set scale_root offsets
    ∧ (k = PadNoteKind.RootNote ∨ k = PadNoteKind.InScaleNote)
    ∧ (k = PadNoteKind.RootNote ↔ p'.filtered % 12 = scale_root)
    ∧ (lower_bound_suffix (mode_notes_vector scale_root offsets)
        (ideal_leftmost_note scale_root octave origin
          ideal_vertical_semitones row))[col]? = some p'.filtered
    ∧ (∀ y ∈ lower_bound_suffix (mode_notes_vector scale_root offsets)
        (ideal_leftmost_note scale_root octave origin
          ideal_vertical_semitones row),
        ideal_leftmost_note scale_root octave origin
          ideal_vertical_semitones row ≤ y)
    ∧ (∀ y ∈ mode_notes_vector scale_root offsets,
        ideal_leftmost_note scale_root octave origin
          ideal_vertical_semitones row ≤ y →
        y ∈ lower_bound_suffix (mode_notes_vector scale_root offsets)
          (ideal_leftmost_note scale_root octave origin
            ideal_vertical_semitones row))
    ∧ (lower_bound_suffix (mode_notes_vector scale_root offsets)
        (ideal_leftmost_note scale_root octave origin
          ideal_vertical_semitones row)).IsSuffix
        (mode_notes_vector scale_root offsets) := by
  have hvec := mode_notes_vector_pairwise scale_root offsets hpos hlt hsorted
  simp only [set_pad_scale_in_key_pad] at hassigned
  have hmain : ∃ note,
      (lower_bound_suffix (mode_notes_vector scale_root offsets)
        (ideal_leftmost_note scale_root octave origin
          ideal_vertical_semitones row))[col]? = some note
      ∧ p'.filtered = note
      ∧ ((k = PadNoteKind.RootNote ∧ note % 12 = scale_root)
         ∨ (k = PadNoteKind.InScaleNote ∧ ¬ note % 12 = scale_root)) := by
    cases hcell : (lower_bound_suffix (mode_notes_vector scale_root offsets)
        (ideal_leftmost_note scale_root octave origin
          ideal_vertical_semitones row))[col]? with
    | none =>
      rw [hcell] at hassigned
      simp at hassigned
    | some note =>
      rw [hcell] at hassigned
      dsimp only at hassigned
      refine ⟨note, rfl, ?_⟩
      by_cases hroot : note % 12 == scale_root
      · rw [if_pos hroot] at hassigned
        obtain ⟨hp', hk⟩ := Prod.mk.injEq _ _ _ _ ▸ hassigned
        refine ⟨?_, Or.inl ⟨(Option.some.inj hk).symm, beq_iff_eq.mp hroot⟩⟩
        rw [← hp', set_pad_note_kind_filtered]
      · rw [if_neg hroot] at hassigned
        obtain ⟨hp', hk⟩ := Prod.mk.injEq _ _ _ _ ▸ hassigned
        refine ⟨?_, Or.inr ⟨(Option.some.inj hk).symm, ?_⟩⟩
        · rw [← hp', set_pad_note_kind_filtered]
        · intro hc
          exact hroot (beq_iff_eq.mpr hc)
  obtain ⟨note, hcell, hfilt, hkind⟩ := hmain
  have hsuffix : (lower_bound_suffix (mode_notes_vector scale_root offsets)
      (ideal_leftmost_note scale_root octave origin
        ideal_vertical_semitones row)).IsSuffix
      (mode_notes_vector scale_root offsets) := List.dropWhile_suffix _
  have hnote_in_suffix : note ∈ lower_bound_suffix
      (mode_notes_vector scale_root offsets)
      (ideal_leftmost_note scale_root octave origin
        ideal_vertical_semitones row) := by
    obtain ⟨hlen, hget⟩ := List.getElem?_eq_some.mp hcell
    exact hget ▸ List.getElem_mem _
  have hnote_in_vec : note ∈ mode_notes_vector scale_root offsets :=
    hsuffix.sublist.subset hnote_in_suffix
  refine ⟨?_, ?_, ?_, ?_, ?_, ?_, hsuffix⟩
  · rw [hfilt]
    exact mode_notes_vector_mod12_mem scale_root offsets note hnote_in_vec
  · rcases hkind with ⟨hk, _⟩ | ⟨hk, _⟩
    · exact Or.inl hk
    · exact Or.inr hk
  · rw [hfilt]
    rcases hkind with ⟨hk, hmod⟩ | ⟨hk, hmod⟩
    · exact ⟨fun _ => hmod, fun _ => hk⟩
    · constructor
      · intro hr
        rw [hk] at hr
        exact absurd hr (by decide)
      · intro hm
        exact absurd hm hmod
  · rw [hfilt]
    exact hcell
  · exact mem_lower_bound_suffix_ge _ _ hvec
  · exact fun y hy hge => mem_lower_bound_suffix_of_ge _ _ y hy hge

/-- Witness for claim C3 at the spec's end-to-end scenario: C major,
octave 3, fixed origin, fourths; pad `(0,0)` receives note 36, whose
pitch class 0 is in the scale and which is classified as the root. -/
theorem C3_in_key_placement_witness :
    (∀ o ∈ ([2, 4, 5, 7, 9, 11] : List Int), 0 < o)
    ∧ exampleInKeyPad.filtered % 12 ∈ mode_interval_set 0 [2, 4, 5, 7, 9, 11]
    ∧ (PadNoteKind.RootNote = PadNoteKind.RootNote
        ↔ exampleInKeyPad.filtered % 12 = 0)
    ∧ (lower_bound_suffix (mode_notes_vector 0 [2, 4, 5, 7, 9, 11])
        (ideal_leftmost_note 0 3 NoteGridOrigin.Fixed 5 0))[0]?
        = some exampleInKeyPad.filtered := by
  have h := C3_in_key_placement 126 0 3 [2, 4, 5, 7, 9, 11]
    NoteGridOrigin.Fixed 5 0 0 examplePad exampleInKeyPad
    PadNoteKind.RootNote
    (by decide) (by decide) (by decide)
    (by simp [set_pad_scale_in_key_pad, mode_notes_vector, modeNotesAux,
      lower_bound_suffix, ideal_leftmost_note, List.dropWhile,
      set_pad_note_kind, examplePad, exampleInKeyPad])
  exact ⟨by decide, h.1, h.2.2.1, h.2.2.2.1⟩

/-! ### Claim C10 -/

/-- Claim C10: a Note-On/Note-Off whose note number is greater than 10
and not 12 but has no entry in the note-to-pad map is passed through to
the output unmodified by `pad_filter` (and sets `matched`). -/
theorem C10_unmapped_note_passthrough (s : FilterState) (ev : MidiEvent)
    (hcue : s.currentLayoutIsCue = false)
    (hkind : ev.kind = MidiEventKind.noteOn ∨ ev.kind = MidiEventKind.noteOff)
    (hgt : ev.note > 10) (hne : ev.note ≠ 12)
    (hmap : s.nnPadMap ev.note = none) :
    pad_filter s [ev] = ([ev], true) := by
  rw [pad_filter_singleton s ev hcue]
  rcases hkind with h | h <;>
    simp [padFilterEvent, MidiEvent.is_note_on, MidiEvent.is_note_off,
      h, hgt, hne, hmap]

/-- Witness for claim C10: note 27 is in the pad note range but is not a
physical pad note in the published map; a Note-On there passes through
unchanged. -/
theorem C10_unmapped_note_passthrough_witness :
    pad_filter exampleFilterState
      [{ kind := MidiEventKind.noteOn, note := 27, velocity := 100 }]
      = ([{ kind := MidiEventKind.noteOn, note := 27, velocity := 100 }],
         true) := by
  apply C10_unmapped_note_passthrough
  · rfl
  · exact Or.inl rfl
  · decide
  · decide
  · simp [exampleFilterState]

/-! ### Claim C1 -/

/-- Claim C1: when the current layout is not the cue layout,
`pad_filter` rewrites a Note-On/Note-Off with note number greater than
10 and not 12 whose pad has a non-negative `filtered` note to
`filtered + octave_shift * 12` and passes it through; it emits nothing
when the pad's `filtered` note is unmapped (negative); pitch-bend,
poly-pressure and channel-pressure events pass through unmodified; and
when the current layout is the cue layout the filter emits no events at
all. -/
theorem C1_pad_filter_behaviour (s : FilterState) (ev : MidiEvent)
    (pad : Pad) :
    (s.currentLayoutIsCue = true → ∀ input, pad_filter s input = ([], false))
    ∧ (s.currentLayoutIsCue = false →
        (ev.kind = MidiEventKind.noteOn ∨ ev.kind = MidiEventKind.noteOff) →
        ev.note > 10 → ev.note ≠ 12 → s.nnPadMap ev.note = some pad →
        ((0 ≤ pad.filtered →
            pad_filter s [ev]
              = ([{ ev with note := pad.filtered + s.octaveShift * 12 }],
                 true))
          ∧ (pad.filtered < 0 → pad_filter s [ev] = ([], true))))
    ∧ (s.currentLayoutIsCue = false →
        (ev.kind = MidiEventKind.pitchBend
          ∨ ev.kind = MidiEventKind.polyPressure
          ∨ ev.kind = MidiEventKind.channelPressure) →
        pad_filter s [ev] = ([ev], false)) := by
  refine ⟨?_, ?_, ?_⟩
  · intro hcue input
    simp [pad_filter, hcue]
  · intro hcue hkind hgt hne hmap
    constructor
    · intro hf
      rw [pad_filter_singleton s ev hcue]
      rcases hkind with h | h <;>
        simp [padFilterEvent, MidiEvent.is_note_on, MidiEvent.is_note_off,
          h, hgt, hne, hmap, hf]
    · intro hf
      rw [pad_filter_singleton s ev hcue]
      rcases hkind with h | h <;>
        simp [padFilterEvent, MidiEvent.is_note_on, MidiEvent.is_note_off,
          h, hgt, hne, hmap, not_le.mpr hf]
  · intro hcue hkind
    rw [pad_filter_singleton s ev hcue]
    rcases hkind with h | h | h <;>
      simp [padFilterEvent, MidiEvent.is_note_on, MidiEvent.is_note_off, h]

/-- Witness for claim C1: in the example state, a Note-On at pad note 40
(whose pad has `filtered = 38`) with octave shift 2 is rewritten to note
`38 + 24 = 62`; a pitch-bend passes through; in the cue layout nothing
is emitted. -/
theorem C1_pad_filter_behaviour_witness :
    pad_filter exampleFilterState
      [{ kind := MidiEventKind.noteOn, note := 40, velocity := 100 }]
      = ([{ kind := MidiEventKind.noteOn, note := 62, velocity := 100 }],
         true)
    ∧ pad_filter exampleFilterState
        [{ kind := MidiEventKind.pitchBend, note := 0, velocity := 0 }]
        = ([{ kind := MidiEventKind.pitchBend, note := 0, velocity := 0 }],
           false)
    ∧ pad_filter { exampleFilterState with currentLayoutIsCue := true }
        [{ kind := MidiEventKind.noteOn, note := 40, velocity := 100 }]
        = ([], false) := by
  have h1 := C1_pad_filter_behaviour exampleFilterState
    { kind := MidiEventKind.noteOn, note := 40, velocity := 100 } examplePad
  have h2 := C1_pad_filter_behaviour exampleFilterState
    { kind := MidiEventKind.pitchBend, note := 0, velocity := 0 } examplePad
  have h3 := C1_pad_filter_behaviour
    { exampleFilterState with currentLayoutIsCue := true }
    { kind := MidiEventKind.noteOn, note := 40, velocity := 100 } examplePad
  refine ⟨?_, ?_, ?_⟩
  · have := (h1.2.1 rfl (Or.inl rfl) (by decide) (by decide)
      (by simp [exampleFilterState])).1 (by decide)
    simpa [exampleFilterState, examplePad] using this
  · exact h2.2.2 rfl (Or.inl rfl)
  · exact h3.1 rfl
      [{ kind := MidiEventKind.noteOn, note := 40, velocity := 100 }]

/-! ### Claim C6 -/

/-- Claim C6 counterexample: the claim states that a notification that
repeats the current state of a bit causes no `begin_using_device`
effect; but in the fully-connected state a repeated input-connected
notification (the input bit is already set) runs `device_acquire` and
the body of `begin_using_device` again. -/
theorem C6_counterexample :
    bitOf fullyConnectedState PortSide.input = true
    ∧ (connection_handler fullyConnectedState PortSide.input true).2
        = [DeviceEffect.deviceAcquire, DeviceEffect.began] := by
  decide

/-- Claim C6, amended: from the disconnected state, input-connected then
output-connected reaches the fully-connected state with exactly one run
of `begin_using_device`; from the fully-connected state clearing either
bit runs `stop_using_device` effectively exactly once; a repeated
identical notification has no effect while the two ports are not both
connected (in any state reachable for `_in_use`), but when both ports
are connected a repeated connected notification runs `device_acquire`
and `begin_using_device` again. -/
theorem C6_connection_machine_amended (s : ConnState) (side : PortSide)
    (yn : Bool)
    (hinv : s.inUse = true → s.inputConnected = true ∧ s.outputConnected = true)
    (hrep : bitOf s side = yn) :
    ((connection_handler disconnectedState PortSide.input true).2 = []
      ∧ connection_handler
          (connection_handler disconnectedState PortSide.input true).1
          PortSide.output true
        = (fullyConnectedState,
           [DeviceEffect.deviceAcquire, DeviceEffect.began]))
    ∧ (∀ side', (connection_handler fullyConnectedState side' false).2
        = [DeviceEffect.stopped])
    ∧ (¬ (s.inputConnected = true ∧ s.outputConnected = true) →
        (connection_handler s side yn).2 = [])
    ∧ ((s.inputConnected = true ∧ s.outputConnected = true) →
        (connection_handler s side yn).2
          = [DeviceEffect.deviceAcquire, DeviceEffect.began]) := by
  obtain ⟨i, o, u⟩ := s
  refine ⟨⟨by decide, by decide⟩, ?_, ?_, ?_⟩
  · intro side'
    cases side' <;> decide
  · intro hnot
    cases side <;> simp only [bitOf] at hrep <;> subst hrep <;>
      cases i <;> cases o <;> cases u <;>
        simp_all [connection_handler, stop_using_device, begin_using_device]
  · intro hboth
    cases side <;> simp only [bitOf] at hrep <;> subst hrep <;>
      cases i <;> cases o <;> cases u <;>
        simp_all [connection_handler, stop_using_device, begin_using_device]

/-- Witness for claim C6: the amended theorem applied in the
fully-connected state to a repeated input-connected notification. -/
theorem C6_connection_machine_amended_witness :
    (connection_handler disconnectedState PortSide.input true).2 = []
    ∧ (connection_handler fullyConnectedState PortSide.output false).2
        = [DeviceEffect.stopped]
    ∧ (connection_handler fullyConnectedState PortSide.input true).2
        = [DeviceEffect.deviceAcquire, DeviceEffect.began] := by
  have h := C6_connection_machine_amended fullyConnectedState PortSide.input
    true (by decide) (by decide)
  exact ⟨h.1.1, h.2.1 PortSide.output, h.2.2.2 (by decide)⟩

/-! ### Claim C7 -/

/-- Claim C7: the color allocator is idempotent.  For every state and
RGBA color, a second `get_color_index` with the same color returns the
same palette index as the first call, emits no device message (no
palette-entry or apply-palette SysEx), and leaves the state unchanged. -/
theorem C7_get_color_index_idempotent (s : ColorState) (rgba : Nat) :
    (get_color_index (get_color_index s rgba).2.2 rgba).1
      = (get_color_index s rgba).1
    ∧ (get_color_index (get_color_index s rgba).2.2 rgba).2.1 = []
    ∧ (get_color_index (get_color_index s rgba).2.2 rgba).2.2
      = (get_color_index s rgba).2.2 := by
  cases hfind : mapFind s.colorMap rgba with
  | some idx => simp [get_color_index, hfind]
  | none =>
    cases hfl : s.freeList with
    | nil => simp [get_color_index, hfind, hfl, mapFind_mapInsert_self]
    | cons i rest => simp [get_color_index, hfind, hfl, mapFind_mapInsert_self]

/-! ### Claim C8 -/

/-- Claim C8: the initial free list built by `build_color_map` contains
exactly the indices 1..121 not mapped from an RGB key; the seven
reserved entries (index 0 and 122-127) are pre-seeded; a newly
allocated (previously uncached) color always receives an index in
1..121 — on the fallback path `1 + random() % 121` when the free list
is empty — so reserved indices are never reassigned; and allocation
never removes an existing cache entry. -/
theorem C8_reserved_palette_invariants (rnd : Nat → Nat) (s : ColorState)
    (rgba i : Nat)
    (hfree : ∀ j ∈ s.freeList, 1 ≤ j ∧ j ≤ 121)
    (hmiss : mapFind s.colorMap rgba = none) :
    (i ∈ (build_color_map_state rnd).freeList ↔
      (1 ≤ i ∧ i ≤ 121
        ∧ ∀ kv ∈ (build_color_map_state rnd).colorMap, kv.2 ≠ i))
    ∧ ((RGB_TO_UINT 0 0 0, 0) ∈ (build_color_map_state rnd).colorMap
        ∧ (RGB_TO_UINT 204 204 204, 122) ∈ (build_color_map_state rnd).colorMap
        ∧ (RGB_TO_UINT 64 64 64, 123) ∈ (build_color_map_state rnd).colorMap
        ∧ (RGB_TO_UINT 20 20 20, 124) ∈ (build_color_map_state rnd).colorMap
        ∧ (RGB_TO_UINT 0 0 255, 125) ∈ (build_color_map_state rnd).colorMap
        ∧ (RGB_TO_UINT 0 255 0, 126) ∈ (build_color_map_state rnd).colorMap
        ∧ (RGB_TO_UINT 255 0 0, 127) ∈ (build_color_map_state rnd).colorMap)
    ∧ (1 ≤ (get_color_index s rgba).1 ∧ (get_color_index s rgba).1 ≤ 121)
    ∧ (s.freeList = [] →
        (get_color_index s rgba).1 = 1 + s.randomSeq s.randCalls % 121)
    ∧ (∀ kv ∈ s.colorMap, kv ∈ (get_color_index s rgba).2.2.colorMap) := by
  refine ⟨?_, ?_, ?_, ?_, ?_⟩
  · constructor
    · intro hi
      simp only [build_color_map_state, List.mem_map, List.mem_reverse,
        List.mem_range] at hi
      obtain ⟨n, hn, rfl⟩ := hi
      refine ⟨by omega, by omega, ?_⟩
      intro kv hkv
      simp only [build_color_map_state, List.mem_cons,
        List.not_mem_nil, or_false] at hkv
      rcases hkv with rfl | rfl | rfl | rfl | rfl | rfl | rfl <;> simp <;> omega
    · rintro ⟨h1, h2, _⟩
      simp only [build_color_map_state, List.mem_map, List.mem_reverse,
        List.mem_range]
      exact ⟨i - 1, by omega, by omega⟩
  · simp [build_color_map_state]
  · cases hfl : s.freeList with
    | nil =>
      have hm := Nat.mod_lt (s.randomSeq s.randCalls)
        (show 0 < 121 by norm_num)
      simp only [get_color_index, hmiss, hfl]
      omega
    | cons j rest =>
      have hj := hfree j (hfl ▸ List.mem_cons_self _ _)
      simp only [get_color_index, hmiss, hfl]
      omega
  · intro hfl
    simp [get_color_index, hmiss, hfl]
  · intro kv hkv
    cases hfl : s.freeList with
    | nil =>
      simp only [get_color_index, hmiss, hfl]
      exact mem_mapInsert_of_mem _ _ _ _ hkv hmiss
    | cons j rest =>
      simp only [get_color_index, hmiss, hfl]
      exact mem_mapInsert_of_mem _ _ _ _ hkv hmiss

/-- Witness for claim C8: in a state with an exhausted free list and the
uncached color `RGB_TO_UINT 1 2 3`, allocation takes the fallback path
and returns `1 + 300 % 121 = 59`, inside 1..121. -/
theorem C8_reserved_palette_invariants_witness :
    (∀ j ∈ exampleColorState.freeList, 1 ≤ j ∧ j ≤ 121)
    ∧ mapFind exampleColorState.colorMap (RGB_TO_UINT 1 2 3) = none
    ∧ (1 ≤ (get_color_index exampleColorState (RGB_TO_UINT 1 2 3)).1
        ∧ (get_color_index exampleColorState (RGB_TO_UINT 1 2 3)).1 ≤ 121)
    ∧ (exampleColorState.freeList = [] →
        (get_color_index exampleColorState (RGB_TO_UINT 1 2 3)).1
          = 1 + exampleColorState.randomSeq exampleColorState.randCalls
              % 121) := by
  have hfree : ∀ j ∈ exampleColorState.freeList, 1 ≤ j ∧ j ≤ 121 := by
    simp [exampleColorState]
  have hmiss : mapFind exampleColorState.colorMap (RGB_TO_UINT 1 2 3)
      = none := by decide
  have h := C8_reserved_palette_invariants (fun _ => 300) exampleColorState
    (RGB_TO_UINT 1 2 3) 50 hfree hmiss
  exact ⟨hfree, hmiss, h.2.2.1, h.2.2.2.1⟩

/-! ### Claim C9 -/

/-- Claim C9: a velocity-zero Note-On is treated identically to a
Note-Off.  The dispatcher's Note-On handler at velocity zero produces
exactly the state change and actions of the Note-Off handler (whose
velocity byte is never read), and the realtime `pad_filter` maps a
velocity-zero Note-On and a Note-Off at the same note to the same
output events under MIDI's note-off reading of velocity-zero Note-Ons,
with the same `matched` flag. -/
theorem C9_velocity_zero_note_on (st : DriverState) (s : FilterState)
    (note : Int) (v : Nat) (n : Int) :
    handle_midi_note_on_message st note 0
      = handle_midi_note_off_message st note v
    ∧ ((pad_filter s [⟨MidiEventKind.noteOn, n, 0⟩]).1.map
          normalizeVelocityZero
        = (pad_filter s [⟨MidiEventKind.noteOff, n, 0⟩]).1.map
            normalizeVelocityZero)
    ∧ (pad_filter s [⟨MidiEventKind.noteOn, n, 0⟩]).2
        = (pad_filter s [⟨MidiEventKind.noteOff, n, 0⟩]).2 := by
  refine ⟨rfl, ?_, ?_⟩ <;>
  · by_cases hcue : s.currentLayoutIsCue
    · simp [pad_filter, hcue]
    · rw [pad_filter_singleton _ _ (by simpa using hcue),
        pad_filter_singleton _ _ (by simpa using hcue)]
      simp only [padFilterEvent, MidiEvent.is_note_on, MidiEvent.is_note_off]
      by_cases hn : ((n > 10) && (n != 12)) = true
      · simp only [hn]
        cases hmap : s.nnPadMap n with
        | none => simp [hmap, normalizeVelocityZero]
        | some pad =>
          by_cases hf : pad.filtered ≥ 0
          · simp [hmap, hf, normalizeVelocityZero]
          · simp [hmap, hf]
      · simp [hn]

end Push2
